import Mathlib

/-!
Shallow embedding of `src/bitcoin-new.py`: the `DailyPriceStats` streaming
accumulator and its two strategies `Schema1` (trend) and `Schema2`
(dispersion).  Prices are modelled as `ℚ` (Python floats; the `statistics`
module computes mean/variance exactly over `Fraction`s before converting
back, so `ℚ` is the natural carrier).  A Python value that may be `None`
becomes an `Option`.  Rendering a float with `f"{x:0.2f}"` is injective on
the underlying value at the precision the claims inspect, so records store
the numeric value itself; a record field that Python renders as `None`
becomes `Option.none`.  Code whose evaluation raises (calling `strftime` on
a `None` timestamp) is modelled by `Option.none` results.
-/

/-- Timestamp at second granularity, mirroring the fields of Python's
`datetime` that the program reads (`.day`, `strftime`). -/
structure DateTime where
  year : ℕ
  month : ℕ
  day : ℕ
  hour : ℕ
  minute : ℕ
  second : ℕ
deriving DecidableEq, Repr

/-- Numeric key that orders valid timestamps chronologically (mixed radix,
lexicographic on year, month, day, hour, minute, second). -/
def DateTime.key (t : DateTime) : ℕ :=
  ((((t.year * 13 + t.month) * 32 + t.day) * 24 + t.hour) * 60 + t.minute) * 60 + t.second

/-- Python `t.strftime("%A")`: full weekday name, via Zeller's congruence
(proleptic Gregorian, as Python's `datetime` uses). -/
def weekday_name (t : DateTime) : String :=
  let m := if t.month ≤ 2 then t.month + 12 else t.month
  let y := if t.month ≤ 2 then t.year - 1 else t.year
  let K := y % 100
  let J := y / 100
  let h := (t.day + (13 * (m + 1)) / 5 + K + K / 4 + J / 4 + 5 * J) % 7
  ["Saturday", "Sunday", "Monday", "Tuesday", "Wednesday", "Thursday", "Friday"].getD h "Monday"

/-- One `(timestamp, price)` entry (`PriceDateEntry` in the source). -/
abbrev Sample := DateTime × ℚ

/-- Python `statistics.mean` (call sites guard against the empty list). -/
def mean (l : List ℚ) : ℚ := l.sum / l.length

/-- Python `statistics.variance`: Bessel-corrected sample variance (call
sites guard against lists of length below 2). -/
def svar (l : List ℚ) : ℚ :=
  ((l.map (fun x => (x - mean l) ^ 2)).sum) / ((l.length : ℚ) - 1)

/-- `DailyPriceStats.new_day`: `prev_date is None or prev_date.day != curr_date.day`.
It reads `self.prev_date` (not yet updated for this sample) and
`self.curr_date` (just set), so it takes them as arguments. -/
def new_day (prev : Option Sample) (curr_date : DateTime) : Bool :=
  match prev with
  | none => true
  | some p => decide (p.1.day ≠ curr_date.day)

/-- State of `Schema1` (trend strategy): the inherited `DailyPriceStats`
fields plus `_max_val` and `_min_val`.  `curr_date`/`curr_val` (and
`prev_date`/`prev_val`) are only ever assigned together, so each pair is one
optional `Sample`. -/
structure Schema1 where
  curr : Option Sample
  prev : Option Sample
  prev_day_val : Option ℚ
  max_val : Option ℚ
  min_val : Option ℚ
deriving DecidableEq, Repr

/-- State of `Schema2` (dispersion strategy): the inherited fields plus
`vals`, the prices collected since the last day boundary. -/
structure Schema2 where
  curr : Option Sample
  prev : Option Sample
  prev_day_val : Option ℚ
  vals : List ℚ
deriving DecidableEq, Repr

/-- `Schema1.change`: `curr_val - prev_day_val`, or `None` when
`prev_day_val` is `None`. -/
def change_val (prev_day_val : Option ℚ) (curr_val : ℚ) : Option ℚ :=
  prev_day_val.map (fun p => curr_val - p)

/-- `Schema1.direction`: `"up"`, `"down"`, `"same"` on the sign of the
change, `None` when the change is `None`. -/
def direction_val (c : Option ℚ) : Option String :=
  c.map (fun x => if x > 0 then "up" else if x < 0 then "down" else "same")

/-- Rendering of the `change` field in `Schema1.output_format`:
`f"{self.change:0.2f}" if self.change else None`.  Python truthiness makes
both `None` and `0.0` render as `None`. -/
def rendered_change (c : Option ℚ) : Option ℚ :=
  match c with
  | none => none
  | some x => if x = 0 then none else some x

/-- `Schema1.high_since_start`: returns the rendered tri-state value and the
updated `_max_val` (the property mutates `self._max_val` as it is read). -/
def high_since_start (max_val : Option ℚ) (curr_val : ℚ) : Option Bool × Option ℚ :=
  match max_val with
  | none => (none, some curr_val)
  | some m => if curr_val > m then (some true, some curr_val) else (some false, some m)

/-- `Schema1.low_since_start`: mirror of `high_since_start` with a
less-than comparison and `_min_val`. -/
def low_since_start (min_val : Option ℚ) (curr_val : ℚ) : Option Bool × Option ℚ :=
  match min_val with
  | none => (none, some curr_val)
  | some m => if curr_val < m then (some true, some curr_val) else (some false, some m)

/-- Record emitted by `Schema1.output_format`.  `price` is rendered as the
fixed 2-decimal string of the stored value; `change := some c` stands for
the 2-decimal string of `c` and `none` for JSON `null`. -/
structure Record1 where
  date : DateTime
  price : ℚ
  direction : Option String
  change : Option ℚ
  dayOfWeek : String
  highSinceStart : Option Bool
  lowSinceStart : Option Bool
deriving DecidableEq, Repr

/-- Record emitted by `Schema2.output_format` (the source spells the last
key `"volatilityalert"`). -/
structure Record2 where
  date : DateTime
  price : ℚ
  dailyAverage : ℚ
  dailyVariance : ℚ
  volatilityalert : Bool
deriving DecidableEq, Repr

/-- Body of `Schema1.output_format` once `curr_date`/`curr_val` are known to
be set (they are passed explicitly as `d`, `v`).  Returns the record and the
state as mutated by reading `high_since_start` / `low_since_start`. -/
def output_format1 (d : DateTime) (v : ℚ) (s : Schema1) : Record1 × Schema1 :=
  let hi := high_since_start s.max_val v
  let lo := low_since_start s.min_val v
  ({ date := d
     price := v
     direction := direction_val (change_val s.prev_day_val v)
     change := rendered_change (change_val s.prev_day_val v)
     dayOfWeek := weekday_name d
     highSinceStart := hi.1
     lowSinceStart := lo.1 },
   { s with max_val := hi.2, min_val := lo.2 })

/-- `Schema1.output_format` on an arbitrary state: when `curr` is absent,
building the `"date"` entry evaluates `None.strftime(...)` and raises
`AttributeError`, modelled as `none`. -/
def output1 (s : Schema1) : Option (Record1 × Schema1) :=
  match s.curr with
  | none => none
  | some (d, v) => some (output_format1 d v s)

/-- One iteration of the loop body of `DailyPriceStats.act` for `Schema1`:
set `curr`; on a new day render (mutating `_max_val`/`_min_val`), run the
(no-op) `post_daily_update`, set `prev_day_val`; `hourly_update` is a no-op;
finally set `prev`. -/
def step1 (s : Schema1) (e : Sample) : Schema1 × List Record1 :=
  let s1 : Schema1 := { s with curr := some e }
  if new_day s.prev e.1 then
    let p := output_format1 e.1 e.2 s1
    ({ p.2 with prev_day_val := some e.2, prev := some e }, [p.1])
  else
    ({ s1 with prev := some e }, [])

/-- The loop of `DailyPriceStats.act` for `Schema1`: final state and the
records yielded inside the loop, in order. -/
def run1 : Schema1 → List Sample → Schema1 × List Record1
  | s, [] => (s, [])
  | s, e :: t =>
    let p := step1 s e
    let q := run1 p.1 t
    (q.1, p.2 ++ q.2)

/-- Initial `Schema1` state (all dataclass fields default to `None`). -/
def init1 : Schema1 := ⟨none, none, none, none, none⟩

/-- `list(Schema1().act(data))`: the loop, then one more (no-op)
`hourly_update` and one unconditional final render.  When the final render
raises (empty input leaves `curr_date = None`), the whole run fails and the
list materializes no records: `none`. -/
def act1 (l : List Sample) : Option (List Record1) :=
  let p := run1 init1 l
  match output1 p.1 with
  | none => none
  | some r => some (p.2 ++ [r.1])

/-- `Schema2.daily_average`: mean of `vals`, or `curr_val` when `vals` is
empty. -/
def daily_average (vals : List ℚ) (curr_val : ℚ) : ℚ :=
  if vals.length < 1 then curr_val else mean vals

/-- `Schema2.daily_variance`: sample variance of `vals`, or `0` when fewer
than 2 values. -/
def daily_variance (vals : List ℚ) : ℚ :=
  if vals.length < 2 then 0 else svar vals

/-- `Schema2.volatility_alert`: for each `i` in `range(len(vals))`, take the
slice `vals[:i]`; skip slices shorter than 2; return `True` on the first
slice whose own last element differs from the slice mean by strictly less
than two sample standard deviations.  With `d := selected_vals[-1] - mean`
and `σ := stdev`, the chained comparison `-2σ < d < 2σ` is equivalent to
`d² < 4·variance`, which stays inside `ℚ`. -/
def volatility_alert (vals : List ℚ) : Bool :=
  (List.range vals.length).any fun i =>
    let selected := vals.take i
    if selected.length < 2 then false
    else decide ((selected.getLast?.getD 0 - mean selected) ^ 2 < 4 * svar selected)

/-- Body of `Schema2.output_format` once `curr_date`/`curr_val` are known to
be set. -/
def output_format2 (d : DateTime) (v : ℚ) (s : Schema2) : Record2 :=
  { date := d
    price := v
    dailyAverage := daily_average s.vals v
    dailyVariance := daily_variance s.vals
    volatilityalert := volatility_alert s.vals }

/-- `Schema2.output_format` on an arbitrary state: `none` when `curr` is
absent (the `"date"` entry raises), and the state comes back unchanged —
none of `daily_average`, `daily_variance`, `volatility_alert` assigns. -/
def output2 (s : Schema2) : Option (Record2 × Schema2) :=
  match s.curr with
  | none => none
  | some (d, v) => some (output_format2 d v s, s)

/-- One iteration of the loop body of `DailyPriceStats.act` for `Schema2`:
set `curr`; on a new day render over the still-uncleared `vals`, then
`post_daily_update` clears `vals`, then set `prev_day_val`; `hourly_update`
appends `curr_val`; finally set `prev`. -/
def step2 (s : Schema2) (e : Sample) : Schema2 × List Record2 :=
  let s1 : Schema2 := { s with curr := some e }
  let p :=
    if new_day s.prev e.1 then
      ({ s1 with vals := [], prev_day_val := some e.2 }, [output_format2 e.1 e.2 s1])
    else (s1, ([] : List Record2))
  ({ p.1 with vals := p.1.vals ++ [e.2], prev := some e }, p.2)

/-- The loop of `DailyPriceStats.act` for `Schema2`. -/
def run2 : Schema2 → List Sample → Schema2 × List Record2
  | s, [] => (s, [])
  | s, e :: t =>
    let p := step2 s e
    let q := run2 p.1 t
    (q.1, p.2 ++ q.2)

/-- Initial `Schema2` state (`vals` defaults to the empty list). -/
def init2 : Schema2 := ⟨none, none, none, []⟩

/-- `list(Schema2().act(data))`: the loop, one more `hourly_update`
(appending `curr_val` a second time for the final sample), then the
unconditional final render.  On empty input Python appends `None` to `vals`
and then the render raises before that appended `None` can be observed, so
the run is `none`. -/
def act2 (l : List Sample) : Option (List Record2) :=
  let p := run2 init2 l
  match p.1.curr with
  | none => none
  | some (d, v) =>
    some (p.2 ++ [output_format2 d v { p.1 with vals := p.1.vals ++ [v] }])

/-- Each timestamp key is at most its successor's (non-decreasing order). -/
def ascending_chain : List Sample → Bool
  | [] => true
  | [_] => true
  | a :: b :: t => decide (a.1.key ≤ b.1.key) && ascending_chain (b :: t)

/-- Ascending (non-decreasing) timestamp sequence, the documented
precondition on input. -/
def Ascending (l : List Sample) : Prop := ascending_chain l = true

instance : DecidablePred Ascending := fun l =>
  inferInstanceAs (Decidable (ascending_chain l = true))

/-- All samples of the list fall on one calendar day (equal year, month and
day-of-month). -/
def SingleDay (l : List Sample) : Prop :=
  ∀ a ∈ l, ∀ b ∈ l,
    a.1.year = b.1.year ∧ a.1.month = b.1.month ∧ a.1.day = b.1.day

instance : DecidablePred SingleDay := fun l =>
  decidable_of_iff
    (∀ a ∈ l, ∀ b ∈ l,
      a.1.year = b.1.year ∧ a.1.month = b.1.month ∧ a.1.day = b.1.day)
    Iff.rfl

/-- Number of distinct calendar days the samples span. -/
def distinct_days (l : List Sample) : ℕ :=
  ((l.map (fun e => (e.1.year, e.1.month, e.1.day))).dedup).length

/-- Number of elements of `l` whose day-of-month differs from its
predecessor's, the predecessor of the head being day-of-month `d`. -/
def countFrom (d : ℕ) : List Sample → ℕ
  | [] => 0
  | e :: t => (if d ≠ e.1.day then 1 else 0) + countFrom e.1.day t

/-- Number of maximal runs of consecutive samples sharing a day-of-month;
this is exactly the number of `new_day` events `act` sees. -/
def runCount : List Sample → ℕ
  | [] => 0
  | e :: t => 1 + countFrom e.1.day t

/-- Convenience constructor for example timestamps. -/
def dt (y m d h : ℕ) : DateTime := ⟨y, m, d, h, 0, 0⟩

lemma run1_cons (s : Schema1) (e : Sample) (t : List Sample) :
    run1 s (e :: t) =
      ((run1 (step1 s e).1 t).1, (step1 s e).2 ++ (run1 (step1 s e).1 t).2) := rfl

lemma run2_cons (s : Schema2) (e : Sample) (t : List Sample) :
    run2 s (e :: t) =
      ((run2 (step2 s e).1 t).1, (step2 s e).2 ++ (run2 (step2 s e).1 t).2) := rfl

lemma step1_curr (s : Schema1) (e : Sample) : (step1 s e).1.curr = some e := by
  unfold step1; split <;> simp [output_format1]

lemma step1_prev (s : Schema1) (e : Sample) : (step1 s e).1.prev = some e := by
  unfold step1; split <;> simp [output_format1]

lemma step1_pdv (s : Schema1) (e : Sample) :
    (step1 s e).1.prev_day_val =
      if new_day s.prev e.1 then some e.2 else s.prev_day_val := by
  unfold step1; split <;> simp_all [output_format1]

lemma step1_out_len (s : Schema1) (e : Sample) :
    ((step1 s e).2).length = if new_day s.prev e.1 then 1 else 0 := by
  unfold step1; split <;> simp_all

lemma step2_curr (s : Schema2) (e : Sample) : (step2 s e).1.curr = some e := by
  unfold step2; split <;> simp

lemma step2_prev (s : Schema2) (e : Sample) : (step2 s e).1.prev = some e := by
  unfold step2; split <;> simp

lemma step2_pdv (s : Schema2) (e : Sample) :
    (step2 s e).1.prev_day_val =
      if new_day s.prev e.1 then some e.2 else s.prev_day_val := by
  unfold step2; split <;> simp_all

lemma step2_out_len (s : Schema2) (e : Sample) :
    ((step2 s e).2).length = if new_day s.prev e.1 then 1 else 0 := by
  unfold step2; split <;> simp_all

lemma step2_vals (s : Schema2) (e : Sample) :
    (step2 s e).1.vals =
      (if new_day s.prev e.1 then [] else s.vals) ++ [e.2] := by
  unfold step2; split <;> simp_all

lemma run1_len (t : List Sample) : ∀ (s : Schema1) (p : Sample), s.prev = some p →
    ((run1 s t).2).length = countFrom p.1.day t := by
  induction t with
  | nil => intro s p _; rfl
  | cons e t ih =>
    intro s p h
    rw [run1_cons]
    simp only [List.length_append]
    rw [ih (step1 s e).1 e (step1_prev s e), step1_out_len, h]
    show (if new_day (some p) e.1 then 1 else 0) + countFrom e.1.day t
        = (if p.1.day ≠ e.1.day then 1 else 0) + countFrom e.1.day t
    have hnd : new_day (some p) e.1 = decide (p.1.day ≠ e.1.day) := rfl
    by_cases hd : p.1.day ≠ e.1.day <;> simp [hnd, hd]

lemma run2_len (t : List Sample) : ∀ (s : Schema2) (p : Sample), s.prev = some p →
    ((run2 s t).2).length = countFrom p.1.day t := by
  induction t with
  | nil => intro s p _; rfl
  | cons e t ih =>
    intro s p h
    rw [run2_cons]
    simp only [List.length_append]
    rw [ih (step2 s e).1 e (step2_prev s e), step2_out_len, h]
    show (if new_day (some p) e.1 then 1 else 0) + countFrom e.1.day t
        = (if p.1.day ≠ e.1.day then 1 else 0) + countFrom e.1.day t
    have hnd : new_day (some p) e.1 = decide (p.1.day ≠ e.1.day) := rfl
    by_cases hd : p.1.day ≠ e.1.day <;> simp [hnd, hd]

lemma run1_curr_ne (t : List Sample) : ∀ s : Schema1, s.curr ≠ none →
    ((run1 s t).1).curr ≠ none := by
  induction t with
  | nil => intro s h; exact h
  | cons e t ih =>
    intro s _
    rw [run1_cons]
    exact ih (step1 s e).1 (by rw [step1_curr]; exact Option.some_ne_none e)

lemma run2_curr_ne (t : List Sample) : ∀ s : Schema2, s.curr ≠ none →
    ((run2 s t).1).curr ≠ none := by
  induction t with
  | nil => intro s h; exact h
  | cons e t ih =>
    intro s _
    rw [run2_cons]
    exact ih (step2 s e).1 (by rw [step2_curr]; exact Option.some_ne_none e)

lemma step1_first (e : Sample) :
    step1 init1 e =
      ({ curr := some e, prev := some e, prev_day_val := some e.2,
         max_val := some e.2, min_val := some e.2 },
       [(output_format1 e.1 e.2 { init1 with curr := some e }).1]) := by
  unfold step1 init1
  simp [new_day, output_format1, high_since_start, low_since_start]

lemma act1_cons_len (e : Sample) (t : List Sample) :
    (act1 (e :: t)).map List.length = some (countFrom e.1.day t + 2) := by
  have hc : ((run1 (step1 init1 e).1 t).1).curr ≠ none :=
    run1_curr_ne t _ (by rw [step1_curr]; exact Option.some_ne_none e)
  obtain ⟨⟨d, v⟩, hdv⟩ := Option.ne_none_iff_exists'.mp hc
  have hlen : ((run1 (step1 init1 e).1 t).2).length = countFrom e.1.day t :=
    run1_len t _ e (step1_prev init1 e)
  have hout : ((step1 init1 e).2).length = 1 := by
    rw [step1_out_len]; rfl
  simp only [act1, run1_cons, output1, hdv, Option.map_some]
  simp [List.length_append, hout, hlen]
  omega

lemma act2_cons_len (e : Sample) (t : List Sample) :
    (act2 (e :: t)).map List.length = some (countFrom e.1.day t + 2) := by
  have hc : ((run2 (step2 init2 e).1 t).1).curr ≠ none :=
    run2_curr_ne t _ (by rw [step2_curr]; exact Option.some_ne_none e)
  obtain ⟨⟨d, v⟩, hdv⟩ := Option.ne_none_iff_exists'.mp hc
  have hlen : ((run2 (step2 init2 e).1 t).2).length = countFrom e.1.day t :=
    run2_len t _ e (step2_prev init2 e)
  have hout : ((step2 init2 e).2).length = 1 := by
    rw [step2_out_len]; rfl
  simp only [act2, run2_cons, hdv]
  simp [List.length_append, hout, hlen]
  omega

lemma act1_cons_first (e : Sample) (t : List Sample) :
    ((act1 (e :: t)).bind List.head?).map
        (fun r => (r.change, r.direction, r.highSinceStart, r.lowSinceStart))
      = some (none, none, none, none) := by
  have hc : ((run1 (step1 init1 e).1 t).1).curr ≠ none :=
    run1_curr_ne t _ (by rw [step1_curr]; exact Option.some_ne_none e)
  obtain ⟨⟨d, v⟩, hdv⟩ := Option.ne_none_iff_exists'.mp hc
  simp only [act1, run1_cons, output1]
  rw [hdv, step1_first]
  simp [output_format1, change_val, direction_val, rendered_change,
    high_since_start, low_since_start, init1, List.cons_append]

lemma countFrom_zero (t : List Sample) : ∀ d : ℕ, (∀ b ∈ t, b.1.day = d) →
    countFrom d t = 0 := by
  induction t with
  | nil => intro d _; rfl
  | cons e t ih =>
    intro d h
    have he : e.1.day = d := h e (List.mem_cons_self e t)
    show (if d ≠ e.1.day then 1 else 0) + countFrom e.1.day t = 0
    rw [he, if_neg (by simp), Nat.zero_add]
    exact ih d (fun b hb => h b (List.mem_cons_of_mem e hb))

lemma run2_last (t : List Sample) : ∀ (s : Schema2) (e : Sample) (d : DateTime) (v : ℚ),
    (e :: t).getLast? = some (d, v) →
    ((run2 s (e :: t)).1).curr = some (d, v) ∧
      ∃ pre, ((run2 s (e :: t)).1).vals = pre ++ [v] := by
  induction t with
  | nil =>
    intro s e d v h
    have he : e = (d, v) := by simpa using h
    subst he
    refine ⟨step2_curr s (d, v), ?_⟩
    rw [run2_cons]
    show ∃ pre, (step2 s (d, v)).1.vals = pre ++ [v]
    exact ⟨_, step2_vals s (d, v)⟩
  | cons b t ih =>
    intro s e d v h
    have h2 : (b :: t).getLast? = some (d, v) := by
      rwa [List.getLast?_cons_cons] at h
    have := ih (step2 s e).1 b d v h2
    rw [run2_cons]
    exact this

lemma run1_keep (t : List Sample) : ∀ s : Schema1,
    s.prev ≠ none → s.prev_day_val ≠ none →
    ((run1 s t).1).prev ≠ none ∧ ((run1 s t).1).prev_day_val ≠ none := by
  induction t with
  | nil => intro s h1 h2; exact ⟨h1, h2⟩
  | cons e t ih =>
    intro s _ h2
    rw [run1_cons]
    refine ih (step1 s e).1 (by rw [step1_prev]; exact Option.some_ne_none e) ?_
    rw [step1_pdv]
    split
    · exact Option.some_ne_none e.2
    · exact h2

lemma run2_keep (t : List Sample) : ∀ s : Schema2,
    s.prev ≠ none → s.prev_day_val ≠ none →
    ((run2 s t).1).prev ≠ none ∧ ((run2 s t).1).prev_day_val ≠ none := by
  induction t with
  | nil => intro s h1 h2; exact ⟨h1, h2⟩
  | cons e t ih =>
    intro s _ h2
    rw [run2_cons]
    refine ih (step2 s e).1 (by rw [step2_prev]; exact Option.some_ne_none e) ?_
    rw [step2_pdv]
    split
    · exact Option.some_ne_none e.2
    · exact h2

/-- Modelled from the spec's words for `volatilityAlert` (claim C4), for
comparison with the source's `volatility_alert`: the index runs up to and
including `len(samplesThisDay)`, and the tested value is the last element of
the full `samplesThisDay` list rather than of the slice. -/
def volatility_alert_spec (vals : List ℚ) : Bool :=
  (List.range (vals.length + 1)).any fun i =>
    let selected := vals.take i
    if selected.length < 2 then false
    else decide ((vals.getLast?.getD 0 - mean selected) ^ 2 < 4 * svar selected)

/-- Two samples on one calendar day: no interior day boundary. -/
def exSingle : List Sample := [(dt 2021 1 15 9, 100), (dt 2021 1 15 10, 110)]

/-- Two samples one month apart but with equal day-of-month: two distinct
calendar days the day-of-month comparison cannot see. -/
def exMonths : List Sample := [(dt 2021 1 15 9, 100), (dt 2021 2 15 9, 200)]

/-- Two samples on consecutive days with equal price, so that the trailing
record's day-over-day change is exactly 0. -/
def exZero : List Sample := [(dt 2021 1 1 9, 100), (dt 2021 1 2 9, 100)]

/-- Two same-day samples, the second a new running maximum. -/
def exRise : List Sample := [(dt 2021 1 1 9, 100), (dt 2021 1 1 10, 110)]

/-- State reached by the `Schema1` loop on `exRise`: the pending render will
commit the new maximum 110. -/
def exRiseState : Schema1 := (run1 init1 exRise).1

/-- A `Schema1` state with a start-of-day price recorded. -/
def exS1 : Schema1 := ⟨some (dt 2021 1 15 9, 60), none, some 50, none, none⟩

/-- A reachable `Schema2` state with one collected sample. -/
def exS2 : Schema2 := ⟨some (dt 2021 1 15 9, 100), some (dt 2021 1 15 9, 100), some 100, [100]⟩

/-- Claim C1 counterexample: a non-empty ascending single-day sequence makes
`act` emit two records (the first sample is itself a `new_day` event), not
exactly one as claimed. -/
theorem single_day_emits_two_not_one :
    exSingle ≠ [] ∧ Ascending exSingle ∧ SingleDay exSingle ∧
    (act1 exSingle).map List.length = some 2 ∧
    (act2 exSingle).map List.length = some 2 ∧
    (act1 exSingle).map List.length ≠ some 1 := by decide

/-- Claim C1 (amended): for every non-empty ascending single-day sequence,
both strategies emit exactly two records — one triggered by the first sample
and the trailing one — and in the Trend strategy the first record has
`change`, `direction`, `highSinceStart` and `lowSinceStart` all absent. -/
theorem act_single_day_records (l : List Sample) (h0 : l ≠ [])
    (ha : Ascending l) (hd : SingleDay l) :
    (act1 l).map List.length = some 2 ∧ (act2 l).map List.length = some 2 ∧
    ((act1 l).bind List.head?).map
        (fun r => (r.change, r.direction, r.highSinceStart, r.lowSinceStart))
      = some (none, none, none, none) := by
  match l, h0 with
  | e :: t, _ =>
    have hdays : ∀ b ∈ t, b.1.day = e.1.day := fun b hb =>
      (hd b (List.mem_cons_of_mem e hb) e (List.mem_cons_self e t)).2.2
    have hcf : countFrom e.1.day t = 0 := countFrom_zero t e.1.day hdays
    refine ⟨?_, ?_, act1_cons_first e t⟩
    · rw [act1_cons_len, hcf]
    · rw [act2_cons_len, hcf]

/-- Witness for the amended claim C1 at a concrete two-sample day. -/
theorem act_single_day_records_w :
    (exSingle ≠ [] ∧ Ascending exSingle ∧ SingleDay exSingle) ∧
    ((act1 exSingle).map List.length = some 2 ∧
      (act2 exSingle).map List.length = some 2 ∧
      ((act1 exSingle).bind List.head?).map
          (fun r => (r.change, r.direction, r.highSinceStart, r.lowSinceStart))
        = some (none, none, none, none)) :=
  ⟨⟨by decide, by decide, by decide⟩,
    act_single_day_records exSingle (by decide) (by decide) (by decide)⟩

/-- Claim C2 counterexample: `exMonths` spans two distinct calendar days,
but the two days share their day-of-month, so the boundary rule sees no
transition and only 2 records come out instead of the claimed D + 1 = 3. -/
theorem distinct_days_record_count_mismatch :
    exMonths ≠ [] ∧ Ascending exMonths ∧ distinct_days exMonths = 2 ∧
    (act1 exMonths).map List.length = some 2 ∧
    (act2 exMonths).map List.length = some 2 ∧
    (act1 exMonths).map List.length ≠ some (distinct_days exMonths + 1) ∧
    (act2 exMonths).map List.length ≠ some (distinct_days exMonths + 1) := by decide

/-- Claim C2 (amended): for every non-empty ascending sequence, both
strategies emit exactly `R + 1` records where `R = runCount l` is the number
of maximal runs of consecutive samples sharing a day-of-month (the §3 rule:
one `new_day` at the first sample plus one per adjacent day-of-month
change).  `R` equals the number of distinct calendar days only when no
adjacent calendar-day change preserves the day-of-month. -/
theorem act_record_count (l : List Sample) (h0 : l ≠ []) (ha : Ascending l) :
    (act1 l).map List.length = some (runCount l + 1) ∧
    (act2 l).map List.length = some (runCount l + 1) := by
  match l, h0 with
  | e :: t, _ =>
    have hrc : runCount (e :: t) = 1 + countFrom e.1.day t := rfl
    constructor
    · rw [act1_cons_len, hrc]
      congr 1
      omega
    · rw [act2_cons_len, hrc]
      congr 1
      omega

/-- Witness for the amended claim C2 at a concrete input whose day-of-month
runs differ from its calendar days. -/
theorem act_record_count_w :
    (exMonths ≠ [] ∧ Ascending exMonths) ∧
    ((act1 exMonths).map List.length = some (runCount exMonths + 1) ∧
      (act2 exMonths).map List.length = some (runCount exMonths + 1)) :=
  ⟨⟨by decide, by decide⟩, act_record_count exMonths (by decide) (by decide)⟩

/-- Claim C3 counterexample: on the empty input neither engine emits any
record, let alone exactly one. -/
theorem act_empty_not_one_record :
    (act1 ([] : List Sample)).map List.length ≠ some 1 ∧
    (act2 ([] : List Sample)).map List.length ≠ some 1 := by decide

/-- Claim C3 (amended): on the empty input the loop runs zero iterations and
emits nothing, and the final unconditional render fails (the current
timestamp is still `None`, so building the record raises) — the run produces
no record at all instead of one all-absent record. -/
theorem act_empty_fails :
    act1 ([] : List Sample) = none ∧ act2 ([] : List Sample) = none ∧
    (run1 init1 []).2 = [] ∧ (run2 init2 []).2 = [] :=
  ⟨rfl, rfl, rfl, rfl⟩

/-- Claim C4 counterexample: on `[0, 0, 5]` the source returns `false` (it
only ever examines slices `vals[:0]`, `vals[:1]`, `vals[:2]` and tests each
slice's own last element), while the behaviour worded in the claim returns
`true` (the full-list element 5 is within two standard deviations of the
full list's mean). -/
theorem volatility_alert_spec_mismatch :
    volatility_alert [0, 0, 5] = false ∧
    volatility_alert_spec [0, 0, 5] = true := by
  have hmean2 : mean [0, 0] = 0 := by
    norm_num [mean, List.sum_cons, List.sum_nil]
  have hsvar2 : svar [0, 0] = 0 := by
    norm_num [svar, mean, List.sum_cons, List.sum_nil, List.map_cons, List.map_nil]
  have hmean3 : mean [0, 0, 5] = 5 / 3 := by
    norm_num [mean, List.sum_cons, List.sum_nil]
  have hsvar3 : svar [0, 0, 5] = 25 / 3 := by
    rw [svar, hmean3]
    norm_num [List.sum_cons, List.sum_nil, List.map_cons, List.map_nil]
  constructor
  · show (List.range 3).any _ = false
    rw [show List.range 3 = [0, 1, 2] from rfl]
    simp only [List.any_cons, List.any_nil, Bool.or_false]
    have e1 : ((([0, 0, 5] : List ℚ).take 0).length < 2) := by simp
    have e2 : ((([0, 0, 5] : List ℚ).take 1).length < 2) := by simp
    have e3 : ¬ ((([0, 0, 5] : List ℚ).take 2).length < 2) := by simp
    have hc2 : ¬ (((([0, 0, 5] : List ℚ).take 2).getLast?.getD 0
        - mean (([0, 0, 5] : List ℚ).take 2)) ^ 2
          < 4 * svar (([0, 0, 5] : List ℚ).take 2)) := by
      rw [show (([0, 0, 5] : List ℚ).take 2) = [0, 0] from rfl,
        show (([0, 0] : List ℚ).getLast?.getD 0) = 0 from rfl, hmean2, hsvar2]
      norm_num
    rw [if_pos e1, if_pos e2, if_neg e3, decide_eq_false hc2]
    rfl
  · apply List.any_eq_true.mpr
    refine ⟨3, by simp, ?_⟩
    show (if (([0, 0, 5] : List ℚ).take 3).length < 2 then false
      else decide ((([0, 0, 5] : List ℚ).getLast?.getD 0
        - mean (([0, 0, 5] : List ℚ).take 3)) ^ 2
          < 4 * svar (([0, 0, 5] : List ℚ).take 3))) = true
    rw [show (([0, 0, 5] : List ℚ).take 3) = [0, 0, 5] from rfl]
    rw [if_neg (by simp)]
    apply decide_eq_true
    rw [show (([0, 0, 5] : List ℚ).getLast?.getD 0) = 5 from rfl, hmean3, hsvar3]
    norm_num

/-- Claim C4 (amended): `volatility_alert` returns `true` iff some strict
slice `vals[:i]` with `0 ≤ i < len(vals)` and at least 2 elements has its
own last element strictly within two sample standard deviations of that
slice's mean (the squared form avoids the square root: `|d| < 2σ` iff
`d² < 4·variance`). -/
theorem volatility_alert_iff (vals : List ℚ) :
    volatility_alert vals = true ↔
      ∃ i, i < vals.length ∧ 2 ≤ i ∧
        ((vals.take i).getLast?.getD 0 - mean (vals.take i)) ^ 2
          < 4 * svar (vals.take i) := by
  unfold volatility_alert
  simp only [List.any_eq_true, List.mem_range]
  constructor
  · rintro ⟨i, hi, hc⟩
    by_cases h2 : (vals.take i).length < 2
    · rw [if_pos h2] at hc
      exact absurd hc (by simp)
    · rw [if_neg h2] at hc
      refine ⟨i, hi, ?_, of_decide_eq_true hc⟩
      rw [List.length_take] at h2
      omega
  · rintro ⟨i, hi, h2, hc⟩
    refine ⟨i, hi, ?_⟩
    have hlen : ¬ (vals.take i).length < 2 := by
      rw [List.length_take]
      omega
    rw [if_neg hlen]
    exact decide_eq_true hc

/-- Claim C5 (confirmed): when a sample crosses a day boundary, the record
emitted inside the loop is the render of the state whose only update so far
is `curr := e` — `prev_day_val`, `_max_val`/`_min_val` and `vals` are still
those of the previous day, i.e. the render happens before the hourly update
and before the day-reset hook. -/
theorem boundary_render_uses_old_state (s1 : Schema1) (s2 : Schema2) (e : Sample)
    (h1 : new_day s1.prev e.1 = true) (h2 : new_day s2.prev e.1 = true) :
    (step1 s1 e).2 = [(output_format1 e.1 e.2 { s1 with curr := some e }).1] ∧
    (step2 s2 e).2 = [output_format2 e.1 e.2 { s2 with curr := some e }] := by
  constructor
  · simp [step1, h1]
  · simp [step2, h2]

/-- Witness for claim C5 at the initial state and a concrete sample. -/
theorem boundary_render_uses_old_state_w :
    (step1 init1 (dt 2021 1 15 9, 100)).2 =
      [(output_format1 (dt 2021 1 15 9) 100
        { init1 with curr := some (dt 2021 1 15 9, 100) }).1] ∧
    (step2 init2 (dt 2021 1 15 9, 100)).2 =
      [output_format2 (dt 2021 1 15 9) 100
        { init2 with curr := some (dt 2021 1 15 9, 100) }] :=
  boundary_render_uses_old_state init1 init2 (dt 2021 1 15 9, 100) rfl rfl

/-- Claim C6 counterexample: after `exZero` the trailing render has
`change() = 0`, which is non-absent, yet the rendered `change` field is
null (Python renders `f"..." if self.change else None` and `0.0` is falsy). -/
theorem change_zero_renders_null :
    change_val ((run1 init1 exZero).1).prev_day_val 100 = some 0 ∧
    ((run1 init1 exZero).1).curr = some (dt 2021 1 2 9, 100) ∧
    (act1 exZero).map (fun rs => rs.getLast?.map (fun r => r.change))
      = some (some none) := by
  have hpdv : ((run1 init1 exZero).1).prev_day_val = some 100 := rfl
  have hcur : ((run1 init1 exZero).1).curr = some (dt 2021 1 2 9, 100) := rfl
  refine ⟨?_, hcur, ?_⟩
  · rw [hpdv]
    show some ((100 : ℚ) - 100) = some 0
    norm_num
  · simp only [act1, output1]
    rw [hcur]
    simp only [Option.map_some, List.getLast?_concat, Option.map_some,
      output_format1, hpdv, change_val, rendered_change]
    norm_num

/-- Claim C6 (amended): the rendered `change` field is the 2-decimal string
of `change()` whenever `change()` is non-absent and nonzero, and is null
exactly when `change()` is absent or equal to 0 (a Python-falsy value). -/
theorem change_field_rendering (s : Schema1) (d : DateTime) (v : ℚ) :
    ((output_format1 d v s).1.change = none ↔
      change_val s.prev_day_val v = none ∨ change_val s.prev_day_val v = some 0) ∧
    (∀ c : ℚ, change_val s.prev_day_val v = some c → c ≠ 0 →
      (output_format1 d v s).1.change = some c) := by
  have hch : (output_format1 d v s).1.change
      = rendered_change (change_val s.prev_day_val v) := rfl
  cases hp : s.prev_day_val with
  | none =>
    refine ⟨?_, ?_⟩
    · rw [hch]
      simp [change_val, rendered_change, hp]
    · intro c hcv _
      simp [change_val, hp] at hcv
  | some p =>
    refine ⟨?_, ?_⟩
    · rw [hch]
      simp only [change_val, hp, Option.map_some, rendered_change]
      by_cases h0 : v - p = 0
      · simp [h0]
      · simp [h0]
    · intro c hcv hc0
      simp only [change_val, hp, Option.map_some, Option.some.injEq] at hcv
      rw [hch]
      simp only [change_val, hp, Option.map_some, rendered_change, hcv]
      rw [if_neg hc0]

/-- Witness for the amended claim C6: a nonzero change of 10 is rendered as
the (string of the) value 10. -/
theorem change_field_rendering_w :
    (output_format1 (dt 2021 1 15 9) 60 exS1).1.change = some 10 :=
  (change_field_rendering exS1 (dt 2021 1 15 9) 60).2 10
    (by norm_num [change_val, exS1]) (by norm_num)

/-- Single-sample list for the claim C7 witness. -/
def exOne : List Sample := [(dt 2021 1 15 9, 5)]

/-- Claim C7 (confirmed): after the loop, `act` applies the hourly update
exactly once more (appending the last price `v` again) and then emits one
final record unconditionally; at that trailing render `vals` ends in two
copies of `v`, so the last price is double-counted. -/
theorem act2_trailing_double (l : List Sample) (d : DateTime) (v : ℚ)
    (h : l.getLast? = some (d, v)) :
    act2 l = some ((run2 init2 l).2 ++
      [output_format2 d v
        { (run2 init2 l).1 with vals := (run2 init2 l).1.vals ++ [v] }]) ∧
    2 ≤ ((run2 init2 l).1.vals ++ [v]).count v := by
  cases l with
  | nil => simp at h
  | cons e t =>
    obtain ⟨hcurr, pre, hvals⟩ := run2_last t init2 e d v h
    constructor
    · simp only [act2, hcurr]
    · rw [hvals]
      have hcnt : ((pre ++ [v]) ++ [v]).count v = pre.count v + 2 := by
        simp [List.count_append]
      omega

/-- Witness for claim C7 on a one-sample input. -/
theorem act2_trailing_double_w :
    act2 exOne = some ((run2 init2 exOne).2 ++
      [output_format2 (dt 2021 1 15 9) 5
        { (run2 init2 exOne).1 with vals := (run2 init2 exOne).1.vals ++ [5] }]) ∧
    2 ≤ ((run2 init2 exOne).1.vals ++ [5]).count 5 :=
  act2_trailing_double exOne (dt 2021 1 15 9) 5 rfl

/-- Claim C8 (confirmed): after any processed prefix `l`, `prev` is absent
iff no sample has been processed, and `prev_day_val` is absent iff no day
transition has occurred — which, since the first sample is itself a
transition, is also iff no sample has been processed.  This holds for both
strategies. -/
theorem accumulator_state_invariant (l : List Sample) :
    (((run1 init1 l).1.prev = none) ↔ l = []) ∧
    (((run1 init1 l).1.prev_day_val = none) ↔ l = []) ∧
    (((run2 init2 l).1.prev = none) ↔ l = []) ∧
    (((run2 init2 l).1.prev_day_val = none) ↔ l = []) := by
  cases l with
  | nil =>
    exact ⟨by simp [run1, init1], by simp [run1, init1],
      by simp [run2, init2], by simp [run2, init2]⟩
  | cons e t =>
    have hp1 : (step1 init1 e).1.prev ≠ none := by
      rw [step1_prev]; exact Option.some_ne_none e
    have hd1 : (step1 init1 e).1.prev_day_val ≠ none := by
      rw [step1_pdv, show new_day init1.prev e.1 = true from rfl]
      simp
    have h1 := run1_keep t (step1 init1 e).1 hp1 hd1
    have hp2 : (step2 init2 e).1.prev ≠ none := by
      rw [step2_prev]; exact Option.some_ne_none e
    have hd2 : (step2 init2 e).1.prev_day_val ≠ none := by
      rw [step2_pdv, show new_day init2.prev e.1 = true from rfl]
      simp
    have h2 := run2_keep t (step2 init2 e).1 hp2 hd2
    exact ⟨iff_of_false h1.1 (List.cons_ne_nil e t),
      iff_of_false h1.2 (List.cons_ne_nil e t),
      iff_of_false h2.1 (List.cons_ne_nil e t),
      iff_of_false h2.2 (List.cons_ne_nil e t)⟩

/-- Claim C9 (confirmed): at the reachable state after `exRise` (the second
sample set a pending new maximum), rendering twice with no intervening
sample yields two different records — the first render returns
`highSinceStart = true` and commits the new maximum, the second returns
`false`. -/
theorem trend_render_not_idempotent :
    ((output1 exRiseState).map fun p => p.1.highSinceStart) = some (some true) ∧
    (((output1 exRiseState).bind fun p => output1 p.2).map
        fun p => p.1.highSinceStart) = some (some false) ∧
    ((output1 exRiseState).map fun p => p.1.highSinceStart)
      ≠ (((output1 exRiseState).bind fun p => output1 p.2).map
          fun p => p.1.highSinceStart) := by
  have hcur : exRiseState.curr = some (dt 2021 1 1 10, 110) := rfl
  have hmax : exRiseState.max_val = some 100 := rfl
  have hhi : high_since_start (some (100 : ℚ)) 110 = (some true, some 110) := by
    show (if (110 : ℚ) > 100 then (some true, some (110 : ℚ))
      else (some false, some 100)) = (some true, some 110)
    rw [if_pos (by norm_num)]
  have hhi2 : high_since_start (some (110 : ℚ)) 110 = (some false, some 110) := by
    show (if (110 : ℚ) > 110 then (some true, some (110 : ℚ))
      else (some false, some 110)) = (some false, some 110)
    rw [if_neg (by norm_num)]
  have e1 : ((output1 exRiseState).map fun p => p.1.highSinceStart)
      = some (some true) := by
    simp only [output1]
    rw [hcur]
    simp only [Option.map_some, output_format1, hmax, hhi]
    rfl
  have hcur2 : ((output_format1 (dt 2021 1 1 10) 110 exRiseState).2).curr
      = some (dt 2021 1 1 10, 110) := rfl
  have hmax2 : ((output_format1 (dt 2021 1 1 10) 110 exRiseState).2).max_val
      = some 110 := by
    simp only [output_format1]
    rw [hmax, hhi]
  have e2 : (((output1 exRiseState).bind fun p => output1 p.2).map
      fun p => p.1.highSinceStart) = some (some false) := by
    simp only [output1]
    rw [hcur]
    simp only [Option.some_bind]
    rw [hcur2]
    simp only [Option.map_some, output_format1, hmax, hhi, hhi2]
    rfl
  refine ⟨e1, e2, ?_⟩
  rw [e1, e2]
  simp

/-- Claim C10 (confirmed): the Dispersion render is pure and idempotent —
a successful `output_format` returns the state unchanged, and rendering
again yields the very same record and state. -/
theorem dispersion_render_idempotent (s : Schema2) (r : Record2) (s2 : Schema2)
    (h : output2 s = some (r, s2)) :
    s2 = s ∧ output2 s2 = some (r, s2) := by
  cases hc : s.curr with
  | none =>
    unfold output2 at h
    rw [hc] at h
    simp at h
  | some dv =>
    obtain ⟨d, v⟩ := dv
    unfold output2 at h
    rw [hc] at h
    simp only [Option.some.injEq, Prod.mk.injEq] at h
    obtain ⟨hr, hs⟩ := h
    subst hs
    refine ⟨rfl, ?_⟩
    unfold output2
    rw [hc]
    show some (output_format2 d v s, s) = some (r, s)
    rw [hr]

/-- Witness for claim C10 at a concrete reachable state. -/
theorem dispersion_render_idempotent_w :
    exS2 = exS2 ∧
    output2 exS2 = some (output_format2 (dt 2021 1 15 9) 100 exS2, exS2) :=
  dispersion_render_idempotent exS2
    (output_format2 (dt 2021 1 15 9) 100 exS2) exS2 rfl
